import Mathlib

/-!
Shallow embedding of the orchestration logic of the `youtube_downloader`
repository (three near-duplicate revisions: `youtube_downloader_v1.0.0_en.py`,
`youtube_downloader_v1.0.0_kr.py`, `youtube_downloader_v1.0.1_kr.py`).

Pure helpers (`extract_percent`, `format_time`, `get_safe_filename`, the SRT
serializer) are byte-identical across revisions and are embedded once, in
namespace `YD`.  Revision-specific control flow (`download_caption`,
`start_download` and its worker `run_tasks`) is embedded in namespaces
`YD.V100` (the two v1.0.0 variants, which differ only in message language;
the English strings are used) and `YD.V101`.

Modelling conventions:
* Python floats are modelled by `Rat`; the arithmetic performed by the
  sources is exact on such values.
* Python exceptions that the code catches are modelled by `Option`/`Except`,
  or by a success boolean for an opaque library call whose whole `try` block
  the code wraps.
* The external transcript provider (youtube_transcript_api) is modelled as a
  list of `TranscriptTrack`s with language / auto-generated / translatable
  attributes; `find_transcript` walks the requested language codes in order
  and returns the first track whose language matches exactly, and
  `find_generated_transcript` does the same among auto-generated tracks.
* Writing status text merely overwrites a label, so a run is summarised by
  the ordered list of status messages it emits; the last element is the
  final visible status.
-/

namespace YD

/-- Python `int(x)` on a (non-NaN) numeric value: truncation toward zero. -/
def pyInt (q : Rat) : Int := q.num.tdiv q.den

/-- Floor of a rational, computably: `q.num / q.den` with `Int` E-division,
which agrees with `⌊q⌋` (`Rat.floor_def`). -/
def ratFloor (q : Rat) : Int := q.num / q.den

/-- Python `divmod(a, b)` on floats: `(floor(a / b), a - b * floor(a / b))`,
both components being floats. -/
def pyDivmod (a b : Rat) : Rat × Rat :=
  ((ratFloor (a / b) : Int), a - b * (ratFloor (a / b) : Int))

/-- Zero padding of a decimal numeral to width `w`. -/
def zfillNat (w : Nat) (n : Nat) : String :=
  let s := toString n
  String.mk (List.replicate (w - s.length) '0') ++ s

/-- Python's zero-padded integer format (width `w`): sign first, then zeros. -/
def pyZeroPad (w : Nat) (n : Int) : String :=
  if n < 0 then "-" ++ zfillNat (w - 1) n.natAbs else zfillNat w n.natAbs

/-- `format_time(seconds)` from the sources (identical in all revisions):
`divmod` by 3600, `divmod` the remainder by 60, milliseconds as
`int((seconds - int(seconds)) * 1000)`, assembled as zero-padded
`HH:MM:SS,mmm`. -/
def format_time (seconds : Rat) : String :=
  let hr := pyDivmod seconds 3600
  let ms := pyDivmod hr.2 60
  let secs := ms.2
  let milliseconds := pyInt ((secs - (pyInt secs : Int)) * 1000)
  pyZeroPad 2 (pyInt hr.1) ++ ":" ++ pyZeroPad 2 (pyInt ms.1) ++ ":" ++
    pyZeroPad 2 (pyInt secs) ++ "," ++ pyZeroPad 3 milliseconds

/-- Characters matched by the character class of the ANSI pattern. -/
def isAnsiParam (c : Char) : Bool := c.isDigit || c = ';'

/-- Model of the first scrub of `extract_percent`: the leftmost,
non-overlapping substitution of the ANSI pattern (ESC, a left bracket, a run
of digits/semicolons, the letter m) by the empty string.  At each position a
match is deleted and scanning resumes after it; otherwise the character is
kept and scanning moves one character right. -/
def stripAnsi : List Char → List Char
  | [] => []
  | c :: rest =>
    if c = '\x1b' ∧ rest.head? = some '[' ∧
        ((rest.tail).dropWhile isAnsiParam).head? = some 'm' then
      stripAnsi ((rest.tail).dropWhile isAnsiParam).tail
    else c :: stripAnsi rest
termination_by l => l.length
decreasing_by
  · have key : ∀ l : List Char, (l.dropWhile isAnsiParam).length ≤ l.length := by
      intro l
      induction l with
      | nil => simp [List.dropWhile]
      | cons a l ih =>
        by_cases ha : isAnsiParam a
        · simp [List.dropWhile, ha]
          omega
        · simp [List.dropWhile, ha]
    have h1 := key rest.tail
    have h2 : rest.tail.length ≤ rest.length := by
      cases rest <;> simp
    have h3 : ((rest.tail).dropWhile isAnsiParam).tail.length ≤
        ((rest.tail).dropWhile isAnsiParam).length := by
      cases ((rest.tail).dropWhile isAnsiParam) <;> simp
    simp only [List.length_cons]
    omega
  · simp only [List.length_cons]
    omega

/-- Characters surviving the second scrub of `extract_percent`
(everything that is not a digit or a decimal point is removed). -/
def isNumChar (c : Char) : Bool := c.isDigit || c = '.'

/-- Value of a list of decimal digits. -/
def digitsVal (l : List Char) : Nat := l.foldl (fun a c => a * 10 + (c.toNat - 48)) 0

/-- Python `float()` restricted to strings of digits and dots (the only
characters that survive the scrub): it succeeds iff there is at most one dot
and at least one digit, and the resulting value is integer part plus
fractional part. -/
def parseFloat? (l : List Char) : Option Rat :=
  if l.all isNumChar then
    match l.splitOn '.' with
    | [i] => if i ≠ [] then some ((digitsVal i : Nat) : Rat) else none
    | [i, fr] =>
      if i ≠ [] ∨ fr ≠ [] then
        some (((digitsVal i : Nat) : Rat) + ((digitsVal fr : Nat) : Rat) / (10 : Rat) ^ fr.length)
      else none
    | _ => none
  else none

/-- `extract_percent(percent_str)` (identical in all revisions): strip the
ANSI pattern, strip every character that is not a digit or dot, parse as a
float, and return 0.0 when parsing raises `ValueError`. -/
def extract_percent (s : String) : Rat :=
  match parseFloat? ((stripAnsi s.data).filter isNumChar) with
  | some v => v
  | none => 0

/-- A full match of the ANSI pattern: ESC, a left bracket, a run of
digits/semicolons, the letter m. -/
def IsAnsiSeq (l : List Char) : Prop :=
  ∃ ps, ps.all isAnsiParam = true ∧ l = '\x1b' :: '[' :: (ps ++ ['m'])

/-- One subtitle entry as delivered by the transcript provider:
`start`, optional `duration` (the code defaults a missing duration to 0)
and `text`. -/
structure CaptionEntry where
  start : Rat
  duration : Option Rat
  text : String
deriving DecidableEq

/-- Python `text.replace(chr(10), chr(32))`: each newline becomes a space. -/
def replaceNewlines (s : String) : String :=
  String.mk (s.data.map fun c => if c = '\n' then ' ' else c)

/-- One SRT cue block as written by the sources for the entry at 0-based
index `i`: 1-based sequence number, the timestamp range line built from the
entry's start and start plus duration, the newline-collapsed text, and a
blank separator line. -/
def cueBlock (i : Nat) (e : CaptionEntry) : String :=
  toString (i + 1) ++ "\n" ++ format_time e.start ++ " --> " ++
    format_time (e.start + e.duration.getD 0) ++ "\n" ++ replaceNewlines e.text ++ "\n\n"

/-- Content of the SRT file written by the sources: the cue blocks of the
enumerated entries, appended in order (sequential `file.write` calls). -/
def srtContent (entries : List CaptionEntry) : String :=
  (entries.enum).foldl (fun acc ie => acc ++ cueBlock ie.1 ie.2) ""

/-- Content of the plain-text file written by the sources: each entry's text
on its own line. -/
def txtContent (entries : List CaptionEntry) : String :=
  entries.foldl (fun acc e => acc ++ e.text ++ "\n") ""

/-- The body written by `save_caption_to_file` (v1.0.1) and by the inline
writer of `download_caption` (v1.0.0), chosen by the `is_srt` flag. -/
def save_caption_content (entries : List CaptionEntry) (is_srt : Bool) : String :=
  if is_srt then srtContent entries else txtContent entries

/-- Spec-side description of the subtitle layout (section 4.3 of the spec):
cue blocks carrying an explicit 1-based counter, written recursively. -/
def specCueBlocks : Nat → List CaptionEntry → String
  | _, [] => ""
  | n, e :: es =>
    toString n ++ "\n" ++ format_time e.start ++ " --> " ++
      format_time (e.start + e.duration.getD 0) ++ "\n" ++ replaceNewlines e.text ++ "\n\n" ++
      specCueBlocks (n + 1) es

/-- The whitespace set of Python `str.strip()` (ASCII subset). -/
def isPySpace (c : Char) : Bool :=
  c = ' ' || c = '\t' || c = '\n' || c = '\r' || c = '\x0b' || c = '\x0c'

/-- Python `s.strip()`. -/
def pyStrip (s : String) : String :=
  String.mk (((s.data.dropWhile isPySpace).reverse.dropWhile isPySpace).reverse)

/-- The wall-clock fields consumed by the timestamp fallback of
`get_safe_filename` (already reduced mod their ranges: two-digit year,
month, day, hour, minute). -/
structure WallClock where
  year2 : Nat
  month : Nat
  day : Nat
  hour : Nat
  minute : Nat
deriving DecidableEq

/-- `datetime.now().strftime` with the year-month-day underscore hour-minute
pattern used by the sources: five zero-padded two-digit fields. -/
def strftime_yymmdd_hhmm (t : WallClock) : String :=
  zfillNat 2 t.year2 ++ zfillNat 2 t.month ++ zfillNat 2 t.day ++ "_" ++
    zfillNat 2 t.hour ++ zfillNat 2 t.minute

/-- `get_safe_filename` (identical in all revisions).  `title_var` is the
user-entered title; `remoteTitle` is the outcome of the metadata lookup
(`YouTube(url).title`), `none` when that lookup raises; `now` is the
wall-clock time at resolution time. -/
def get_safe_filename (title_var : String) (remoteTitle : Option String)
    (now : WallClock) : String :=
  if pyStrip title_var ≠ "" then pyStrip title_var
  else
    match remoteTitle with
    | some t => t
    | none => "download_" ++ strftime_yymmdd_hhmm now

/-- One transcript track exposed by the provider. -/
structure TranscriptTrack where
  languageCode : String
  isGenerated : Bool
  isTranslatable : Bool
deriving DecidableEq

/-- `TranscriptList.find_transcript(language_codes)`: walk the requested
codes in priority order, returning the first available track whose language
matches exactly; `none` models the `NoTranscriptFound` exception. -/
def find_transcript (tl : List TranscriptTrack) : List String → Option TranscriptTrack
  | [] => none
  | l :: ls =>
    match tl.find? (fun t => t.languageCode == l) with
    | some t => some t
    | none => find_transcript tl ls

/-- `TranscriptList.find_generated_transcript(language_codes)`: as
`find_transcript` but only among auto-generated tracks. -/
def find_generated_transcript (tl : List TranscriptTrack) : List String → Option TranscriptTrack
  | [] => none
  | l :: ls =>
    match tl.find? (fun t => t.isGenerated && t.languageCode == l) with
    | some t => some t
    | none => find_generated_transcript tl ls

end YD

namespace YD.V100

/-- The track whose entries `download_caption` (v1.0.0, both variants)
finally fetches: either the selected track itself, or — when it is
translatable — its translation to the given language. -/
inductive FetchSource where
  | original (t : TranscriptTrack)
  | translated (t : TranscriptTrack) (lang : String)
deriving DecidableEq

/-- The nested try/except chain of `download_caption` (v1.0.0):
`find_transcript` on ko, en, ja; on `NoTranscriptFound`,
`find_generated_transcript` on ja, en; on any failure, the first track of
the list (via `next(iter(...), None)`). -/
def selectTranscript (tl : List TranscriptTrack) : Option TranscriptTrack :=
  match find_transcript tl ["ko", "en", "ja"] with
  | some t => some t
  | none =>
    match find_generated_transcript tl ["ja", "en"] with
    | some t => some t
    | none => tl.head?

/-- Selection plus the unconditional translate-to-English step of
`download_caption` (v1.0.0): a `none` selection raises `NoTranscriptFound`;
otherwise, whenever the chosen track is translatable it is replaced by its
English translation before `fetch()` is called. -/
def chooseTranscript (tl : List TranscriptTrack) : Except String FetchSource :=
  match selectTranscript tl with
  | none => Except.error "NoTranscriptFound"
  | some t =>
    Except.ok (if t.isTranslatable then FetchSource.translated t "en" else FetchSource.original t)

/-- Status messages of the caption task of v1.0.0 (English variant): the
task catches every exception itself and reports it; on success it emits
nothing.  `capFail` is `some e` when any step of the task raises `e`. -/
def captionTaskMsgs : Option String → List String
  | none => []
  | some e => ["Subtitle download failed: " ++ e]

/-- `run_tasks` of `start_download` (v1.0.0, English variant), summarised by
its ordered status messages.  Tasks run in order caption, video, audio; the
caption task swallows its own exceptions, while a failing video/audio task
raises out of the loop into the `except` arm; when no exception escapes, the
all-done message is emitted unconditionally.  `vidFail`/`audFail` are
`some e` when the respective `yt_dlp` invocation raises `e`. -/
def run_tasks (capSel vidSel audSel : Bool) (capFail : Option String)
    (vidFail audFail : Option String) : List String :=
  let capMsgs := if capSel then captionTaskMsgs capFail else []
  if vidSel then
    match vidFail with
    | some e => capMsgs ++ ["Error occurred: " ++ e]
    | none =>
      if audSel then
        match audFail with
        | some e => capMsgs ++ ["Error occurred: " ++ e]
        | none => capMsgs ++ ["All downloads completed!"]
      else capMsgs ++ ["All downloads completed!"]
  else
    if audSel then
      match audFail with
      | some e => capMsgs ++ ["Error occurred: " ++ e]
      | none => capMsgs ++ ["All downloads completed!"]
    else capMsgs ++ ["All downloads completed!"]

/-- The three download tasks. -/
inductive TaskKind where
  | caption
  | video
  | audio
deriving DecidableEq

/-- The pre-thread part of `start_download` (v1.0.0, English variant):
the empty-URL guard, then the task list built from the three checkboxes,
then the empty-task-list guard.  Returns the guard message (if any) and the
tasks that the worker thread would run. -/
def start_download (url : String) (sub video audio : Bool) :
    Option String × List TaskKind :=
  if url = "" then (some "Please enter a URL.", [])
  else
    let tasks := (if sub then [TaskKind.caption] else []) ++
      (if video then [TaskKind.video] else []) ++
      (if audio then [TaskKind.audio] else [])
    if tasks = [] then (some "Please select download options.", [])
    else (none, tasks)

end YD.V100

namespace YD.V101

/-- The three values of the language dropdown of v1.0.1
(Korean / English / all languages). -/
inductive Lang where
  | korean
  | english
  | all
deriving DecidableEq

/-- Outcomes of the opaque provider calls inside `download_caption`
(v1.0.1).  `listOk` is whether `list_transcripts` returns (with `errMsg` the
exception text otherwise); the three remaining flags say whether the
respective find-fetch-save block completes without raising. -/
structure CaptionEnv where
  listOk : Bool
  errMsg : String
  koOk : Bool
  enOk : Bool
  autoEnOk : Bool
deriving DecidableEq

/-- Result of one `download_caption` run (v1.0.1): the ordered status
messages, the `downloaded_subtitles` list, the subtitle files written, the
final value of the caption progress variable, and the returned boolean. -/
structure CaptionResult where
  messages : List String
  downloaded : List String
  files : List String
  progress : Nat
  ret : Bool
deriving DecidableEq

def statusDownloading : String := "자막 다운로드 중..."

def koFailMsg : String := "한국어 자막이 없어 다운로드 하지 못했습니다."

def enFailMsg : String := "영어 자막이 없어 다운로드 하지 못했습니다."

def allFailMsg : String := "자막을 찾을 수 없어 다운로드 하지 못했습니다."

def doneSuffix : String := " 자막 다운로드 완료"

/-- `download_caption` (v1.0.1).  `fileBase` is the joined download path and
safe title.  Mirrors the source: announce the download, list the tracks
(failure lands in the outer except arm), run the Korean block when Korean or
all languages are selected (reporting the Korean failure message only in
Korean-only mode), run the English block when English or all languages are
selected (exact track first, then auto-generated with its own suffix,
reporting the English failure message only in English-only mode), then
report the joined completion message and set progress 100 returning True
when anything was downloaded, else progress 0 returning False with the
total-failure message only in all-languages mode. -/
def download_caption (lang : Lang) (env : CaptionEnv) (fileBase : String)
    (is_srt : Bool) : CaptionResult :=
  if env.listOk = false then
    { messages := [statusDownloading, "자막 다운로드 실패: " ++ env.errMsg],
      downloaded := [], files := [], progress := 0, ret := false }
  else
    let ext := if is_srt then "srt" else "txt"
    let ko := if lang = Lang.korean ∨ lang = Lang.all then
        if env.koOk then (([] : List String), ["한국어"], [fileBase ++ "_kr." ++ ext])
        else if lang = Lang.korean then ([koFailMsg], [], [])
        else ([], [], [])
      else ([], [], [])
    let en := if lang = Lang.english ∨ lang = Lang.all then
        if env.enOk then (([] : List String), ["영어"], [fileBase ++ "_en." ++ ext])
        else if env.autoEnOk then ([], ["영어 자동생성"], [fileBase ++ "_auto_en." ++ ext])
        else if lang = Lang.english then ([enFailMsg], [], [])
        else ([], [], [])
      else ([], [], [])
    let downloaded := ko.2.1 ++ en.2.1
    let files := ko.2.2 ++ en.2.2
    let preMsgs := statusDownloading :: ko.1 ++ en.1
    match downloaded with
    | [] =>
      if lang = Lang.all then
        { messages := preMsgs ++ [allFailMsg], downloaded := [], files := files,
          progress := 0, ret := false }
      else
        { messages := preMsgs, downloaded := [], files := files,
          progress := 0, ret := false }
    | d :: rest =>
      let finalMsg := if rest = [] then d ++ doneSuffix
        else String.intercalate " 및 " (d :: rest) ++ doneSuffix
      { messages := preMsgs ++ [finalMsg], downloaded := d :: rest, files := files,
        progress := 100, ret := true }

/-- Outcomes of the opaque calls of one v1.0.1 session: the language choice,
the caption environment, and the success of the video/audio invocations
(with error text on failure). -/
structure SessionEnv where
  lang : Lang
  cap : CaptionEnv
  videoOk : Bool
  videoErr : String
  audioOk : Bool
  audioErr : String

/-- Status messages of `download_video_audio` (v1.0.1): nothing on success,
the mode-specific failure message otherwise (the function catches its own
exceptions and returns a boolean). -/
def videoAudioMsgs (mode : String) (ok : Bool) (err : String) : List String :=
  if ok then [] else [mode ++ " 다운로드 실패: " ++ err]

/-- `run_tasks` of `start_download` (v1.0.1), summarised by its ordered
status messages.  Each task contributes its own messages and its boolean
outcome feeds the aggregate step: the summary is suppressed when captions
were the only selected option and failed; otherwise the all-done message is
shown when every selected task succeeded, and the partial-done message when
some selected non-caption task succeeded. -/
def run_tasks (capSel vidSel audSel : Bool) (env : SessionEnv) (fileBase : String)
    (is_srt : Bool) : List String :=
  let capRes := download_caption env.lang env.cap fileBase is_srt
  let capMsgs := if capSel then capRes.messages else []
  let capSucc := capSel && capRes.ret
  let vidMsgs := if vidSel then videoAudioMsgs "video" env.videoOk env.videoErr else []
  let vidSucc := vidSel && env.videoOk
  let audMsgs := if audSel then videoAudioMsgs "audio" env.audioOk env.audioErr else []
  let audSucc := audSel && env.audioOk
  let onlyCaptionFailed := capSel && !capRes.ret && !vidSel && !audSel
  let allSelectedSucceeded := (!capSel || capSucc) && (!vidSel || vidSucc) && (!audSel || audSucc)
  let hasOtherSuccess := vidSucc || audSucc
  let aggregate := if onlyCaptionFailed then ([] : List String)
    else if allSelectedSucceeded then ["모든 다운로드가 완료되었습니다!"]
    else if hasOtherSuccess then ["일부 다운로드가 완료되었습니다."]
    else []
  capMsgs ++ vidMsgs ++ audMsgs ++ aggregate

/-- The pre-thread part of `start_download` (v1.0.1): the empty-URL guard,
then the any-option-selected guard (checked before the worker thread is
started).  Returns the guard message (if any) and the tasks the worker
would run. -/
def start_download (url : String) (sub video audio : Bool) :
    Option String × List V100.TaskKind :=
  if url = "" then (some "URL을 입력해주세요.", [])
  else if (sub || video || audio) = false then (some "다운로드 옵션을 선택해주세요.", [])
  else
    (none, (if sub then [V100.TaskKind.caption] else []) ++
      (if video then [V100.TaskKind.video] else []) ++
      (if audio then [V100.TaskKind.audio] else []))

end YD.V101

namespace YD

theorem ratFloor_eq_floor (q : Rat) : ratFloor q = ⌊q⌋ := Rat.floor_def.symm

theorem pyInt_eq_floor (q : Rat) (h : 0 ≤ q) : pyInt q = ⌊q⌋ := by
  have hnum : 0 ≤ q.num := Rat.num_nonneg.mpr h
  have hden : (0 : Int) ≤ (q.den : Int) := Int.ofNat_nonneg q.den
  rw [pyInt, Int.tdiv_eq_ediv hnum hden, ← ratFloor, ratFloor_eq_floor]

theorem pyInt_intCast (n : Int) : pyInt (n : Rat) = n := by
  rw [pyInt, Rat.num_intCast, Rat.den_intCast, Nat.cast_one, Int.tdiv_one]

/-- On an input of `h` hours, `m` minutes, `s` seconds plus a fractional part
`f`, `format_time` prints the three zero-padded sexagesimal fields and the
truncated milliseconds of `f`. -/
theorem format_time_hms (h m s : Nat) (f : Rat) (hm : m < 60) (hs : s < 60)
    (hf0 : 0 ≤ f) (hf1 : f < 1) :
    format_time (((h * 3600 + m * 60 + s : Nat) : Rat) + f) =
      pyZeroPad 2 (h : Int) ++ ":" ++ pyZeroPad 2 (m : Int) ++ ":" ++
        pyZeroPad 2 (s : Int) ++ "," ++ pyZeroPad 3 ⌊f * 1000⌋ := by
  have hmQ : (m : Rat) < 60 := by exact_mod_cast hm
  have hsQ : (s : Rat) < 60 := by exact_mod_cast hs
  have hmQ0 : (0 : Rat) ≤ (m : Rat) := by positivity
  have hsQ0 : (0 : Rat) ≤ (s : Rat) := by positivity
  have hmQ59 : (m : Rat) ≤ 59 := by
    have h1 : m ≤ 59 := by omega
    exact_mod_cast h1
  have hsQ59 : (s : Rat) ≤ 59 := by
    have h1 : s ≤ 59 := by omega
    exact_mod_cast h1
  have hhrs : ratFloor ((((h * 3600 + m * 60 + s : Nat) : Rat) + f) / 3600) = (h : Int) := by
    rw [ratFloor_eq_floor, Int.floor_eq_iff]
    push_cast
    constructor
    · rw [le_div_iff₀ (by norm_num)]
      linarith
    · rw [div_lt_iff₀ (by norm_num)]
      linarith
  have hrem : ((h * 3600 + m * 60 + s : Nat) : Rat) + f - 3600 * (((h : Int)) : Rat)
      = ((m * 60 + s : Nat) : Rat) + f := by
    push_cast
    ring
  have hmins : ratFloor ((((m * 60 + s : Nat) : Rat) + f) / 60) = (m : Int) := by
    rw [ratFloor_eq_floor, Int.floor_eq_iff]
    push_cast
    constructor
    · rw [le_div_iff₀ (by norm_num)]
      linarith
    · rw [div_lt_iff₀ (by norm_num)]
      linarith
  have hrem2 : ((m * 60 + s : Nat) : Rat) + f - 60 * (((m : Int)) : Rat) = ((s : Nat) : Rat) + f := by
    push_cast
    ring
  have hsecsInt : pyInt (((s : Nat) : Rat) + f) = ((s : Nat) : Int) := by
    rw [pyInt_eq_floor _ (by positivity), Int.floor_eq_iff]
    push_cast
    constructor
    · linarith
    · linarith
  have hmsInt : pyInt ((((s : Nat) : Rat) + f - (((s : Nat) : Int) : Rat)) * 1000) = ⌊f * 1000⌋ := by
    have harg : (((s : Nat) : Rat) + f - (((s : Nat) : Int) : Rat)) * 1000 = f * 1000 := by
      push_cast
      ring
    rw [harg, pyInt_eq_floor _ (by positivity)]
  simp only [format_time, pyDivmod]
  rw [hhrs, hrem, hmins, hrem2, hsecsInt, hmsInt]
  simp only [pyInt_intCast]

/-- Characterisation of `format_time` on every non-negative input: the three
fields are the divmod decomposition of the floor of the input, and the
milliseconds are the fractional part times 1000, rounded down. -/
theorem format_time_eq (x : Rat) (hx : 0 ≤ x) :
    format_time x =
      pyZeroPad 2 ((⌊x⌋.toNat / 3600 : Nat) : Int) ++ ":" ++
        pyZeroPad 2 ((⌊x⌋.toNat % 3600 / 60 : Nat) : Int) ++ ":" ++
        pyZeroPad 2 ((⌊x⌋.toNat % 60 : Nat) : Int) ++ "," ++
        pyZeroPad 3 ⌊(x - ⌊x⌋) * 1000⌋ := by
  have hfl0 : 0 ≤ ⌊x⌋ := Int.floor_nonneg.mpr hx
  set n : Nat := ⌊x⌋.toNat with hn
  have hfloorn : (⌊x⌋ : Int) = (n : Int) := (Int.toNat_of_nonneg hfl0).symm
  have hdec : n / 3600 * 3600 + n % 3600 / 60 * 60 + n % 60 = n := by omega
  have hm : n % 3600 / 60 < 60 := by omega
  have hs : n % 60 < 60 := by omega
  have hxsplit : x = ((n / 3600 * 3600 + n % 3600 / 60 * 60 + n % 60 : Nat) : Rat) + Int.fract x := by
    rw [hdec]
    have h1 : ((n : Int) : Rat) + Int.fract x = x := by
      rw [← hfloorn]
      exact Int.floor_add_fract x
    push_cast at h1 ⊢
    linarith
  rw [hxsplit, format_time_hms _ _ _ _ hm hs (Int.fract_nonneg x) (Int.fract_lt_one x)]
  have hfr : Int.fract x = x - ⌊x⌋ := rfl
  rw [← hxsplit, hfr]

/-- `format_time` on a whole number of seconds. -/
theorem format_time_whole (k : Nat) :
    format_time ((k : Nat) : Rat) =
      pyZeroPad 2 ((k / 3600 : Nat) : Int) ++ ":" ++
        pyZeroPad 2 ((k % 3600 / 60 : Nat) : Int) ++ ":" ++
        pyZeroPad 2 ((k % 60 : Nat) : Int) ++ "," ++ pyZeroPad 3 0 := by
  have h := format_time_eq ((k : Nat) : Rat) (by positivity)
  rw [Int.floor_natCast] at h
  simp only [Int.toNat_natCast] at h
  have h1 : (((k : Nat) : Rat) - ((k : Nat) : Int)) * 1000 = 0 := by
    push_cast
    ring
  rw [h1, Int.floor_zero] at h
  exact h

theorem stripAnsi_nil : stripAnsi [] = [] := by
  simp [stripAnsi]

theorem dropWhile_param_append (ps l : List Char) (h : ps.all isAnsiParam) :
    List.dropWhile isAnsiParam (ps ++ l) = List.dropWhile isAnsiParam l := by
  induction ps with
  | nil => simp
  | cons a ps ih =>
    rw [List.all_cons, Bool.and_eq_true] at h
    simp [List.dropWhile, h.1, ih h.2]

/-- A full ANSI escape sequence at the head of the input is deleted. -/
theorem stripAnsi_seq (ps rest : List Char) (h : ps.all isAnsiParam) :
    stripAnsi ('\x1b' :: '[' :: (ps ++ 'm' :: rest)) = stripAnsi rest := by
  rw [stripAnsi]
  have hdw : List.dropWhile isAnsiParam (ps ++ 'm' :: rest) = 'm' :: rest := by
    rw [dropWhile_param_append _ _ h]
    simp [List.dropWhile, isAnsiParam]
  simp [hdw]

/-- Characters other than ESC pass through the ANSI scrub untouched. -/
theorem stripAnsi_no_esc (l rest : List Char) (h : ∀ c ∈ l, c ≠ '\x1b') :
    stripAnsi (l ++ rest) = l ++ stripAnsi rest := by
  induction l with
  | nil => simp
  | cons a l ih =>
    have ha : a ≠ '\x1b' := h a (by simp)
    rw [List.cons_append, stripAnsi]
    simp [ha]
    exact ih (fun c hc => h c (by simp [hc]))

/-- Every value produced by the float parser is non-negative (the scrub has
removed every minus sign before parsing). -/
theorem parseFloat?_nonneg (l : List Char) (v : Rat) (h : parseFloat? l = some v) : 0 ≤ v := by
  rw [parseFloat?] at h
  split at h
  · split at h
    · split at h
      · rw [Option.some.injEq] at h
        subst h
        positivity
      · exact absurd h (by simp)
    · split at h
      · rw [Option.some.injEq] at h
        subst h
        positivity
      · exact absurd h (by simp)
    · exact absurd h (by simp)
  · exact absurd h (by simp)

end YD

namespace YD

theorem srt_foldl (es : List CaptionEntry) :
    ∀ (n : Nat) (acc : String),
      (List.enumFrom n es).foldl (fun acc ie => acc ++ cueBlock ie.1 ie.2) acc =
        acc ++ specCueBlocks (n + 1) es := by
  induction es with
  | nil =>
    intro n acc
    simp [specCueBlocks]
  | cons e es ih =>
    intro n acc
    have h1 : List.enumFrom n (e :: es) = (n, e) :: List.enumFrom (n + 1) es := rfl
    rw [h1, List.foldl_cons, ih (n + 1) (acc ++ cueBlock n e)]
    rw [specCueBlocks, cueBlock]
    simp [String.append_assoc]

end YD

theorem YD.empty_append_str (s : String) : "" ++ s = s := rfl

namespace YD

/-- C4: for every progress string consisting of a numeric percentage wrapped
in ANSI escape sequences, `extract_percent` returns exactly the numeric
value (the escape sequences are stripped, every character that is not a
digit or dot is stripped, and the remainder parses as a float); and for
every input whose scrubbed form fails to parse, it returns 0.0. -/
theorem extract_percent_spec :
    (∀ (e1 e2 num : List Char) (v : Rat), IsAnsiSeq e1 → IsAnsiSeq e2 →
      num.all isNumChar = true → parseFloat? num = some v →
      extract_percent (String.mk (e1 ++ num ++ '%' :: e2)) = v) ∧
    (∀ s : String, parseFloat? ((stripAnsi s.data).filter isNumChar) = none →
      extract_percent s = 0) := by
  constructor
  · rintro e1 e2 num v ⟨ps1, hps1, rfl⟩ ⟨ps2, hps2, rfl⟩ hnum hparse
    have hdata : (String.mk (('\x1b' :: '[' :: (ps1 ++ ['m'])) ++ num ++ '%' ::
        ('\x1b' :: '[' :: (ps2 ++ ['m'])))).data
        = '\x1b' :: '[' :: (ps1 ++ 'm' :: (num ++ '%' :: ('\x1b' :: '[' :: (ps2 ++ ['m'])))) := by
      simp
    rw [extract_percent, hdata, stripAnsi_seq _ _ hps1]
    have hne : ∀ c ∈ num ++ ['%'], c ≠ '\x1b' := by
      intro c hc
      rcases List.mem_append.mp hc with hcn | hcp
      · intro heq
        have hcn2 := List.all_eq_true.mp hnum c hcn
        rw [heq] at hcn2
        simp [isNumChar] at hcn2
      · simp at hcp
        simp [hcp]
    have hsplit : num ++ '%' :: ('\x1b' :: '[' :: (ps2 ++ ['m']))
        = (num ++ ['%']) ++ ('\x1b' :: '[' :: (ps2 ++ ['m'])) := by
      simp
    rw [hsplit, stripAnsi_no_esc _ _ hne]
    have he2 : stripAnsi ('\x1b' :: '[' :: (ps2 ++ ['m'])) = [] := by
      have h0 : ('\x1b' :: '[' :: (ps2 ++ ['m'])) = '\x1b' :: '[' :: (ps2 ++ 'm' :: ([] : List Char)) := by
        simp
      rw [h0, stripAnsi_seq _ _ hps2, stripAnsi_nil]
    rw [he2, List.append_nil, List.filter_append]
    have hfnum : num.filter isNumChar = num :=
      List.filter_eq_self.mpr (List.all_eq_true.mp hnum)
    have hfp : List.filter isNumChar ['%'] = [] := by decide
    rw [hfnum, hfp, List.append_nil, hparse]
  · intro s h
    rw [extract_percent, h]

/-- Witness for C4: a colourised `37.5%` yields 37.5, and a digit-free
input yields 0.0. -/
theorem extract_percent_spec_witness :
    extract_percent "\x1b[0;32m37.5%\x1b[0m" = 37.5 ∧ extract_percent "hello" = 0 := by
  constructor
  · have h := extract_percent_spec.1 ('\x1b' :: '[' :: (['0', ';', '3', '2'] ++ ['m']))
      ('\x1b' :: '[' :: (['0'] ++ ['m'])) ['3', '7', '.', '5']
      ((37 : Rat) + (5 : Rat) / (10 : Rat) ^ 1)
      ⟨['0', ';', '3', '2'], by decide, rfl⟩ ⟨['0'], by decide, rfl⟩ (by decide) (by rfl)
    have hs : "\x1b[0;32m37.5%\x1b[0m"
        = String.mk (('\x1b' :: '[' :: (['0', ';', '3', '2'] ++ ['m'])) ++
            ['3', '7', '.', '5'] ++ '%' :: ('\x1b' :: '[' :: (['0'] ++ ['m']))) := by rfl
    rw [hs, h]
    norm_num
  · apply extract_percent_spec.2
    have hse : "hello".data = "hello".data ++ [] := by simp
    have h1 : stripAnsi "hello".data = "hello".data := by
      conv_lhs => rw [hse]
      rw [stripAnsi_no_esc _ _ (by decide), stripAnsi_nil, List.append_nil]
    rw [h1]
    decide

/-- C9 (implicit): `extract_percent` is total — it returns a value on every
input string without raising — and that value is never negative, because the
scrub removes every minus sign before parsing. -/
theorem extract_percent_total_nonneg : ∀ s : String, 0 ≤ extract_percent s := by
  intro s
  rw [extract_percent]
  split
  · exact parseFloat?_nonneg _ _ (by assumption)
  · exact le_refl 0

/-- C5: on every non-negative input, `format_time` decomposes the value by
divmod 3600 then divmod 60, truncates the fractional remainder times 1000 to
milliseconds, and prints the zero-padded fields. -/
theorem format_time_spec (x : Rat) (hx : 0 ≤ x) :
    format_time x =
      pyZeroPad 2 ((⌊x⌋.toNat / 3600 : Nat) : Int) ++ ":" ++
        pyZeroPad 2 ((⌊x⌋.toNat % 3600 / 60 : Nat) : Int) ++ ":" ++
        pyZeroPad 2 ((⌊x⌋.toNat % 60 : Nat) : Int) ++ "," ++
        pyZeroPad 3 ⌊(x - ⌊x⌋) * 1000⌋ :=
  format_time_eq x hx

/-- Witness for C5: 3725.25 seconds formats as 01:02:05,250. -/
theorem format_time_spec_witness :
    (0 : Rat) ≤ 3725.25 ∧ format_time (3725.25 : Rat) = "01:02:05,250" := by
  refine ⟨by norm_num, ?_⟩
  have h := format_time_spec (3725.25 : Rat) (by norm_num)
  have hfl : ⌊(3725.25 : Rat)⌋ = 3725 := by norm_num [Int.floor_eq_iff]
  rw [hfl] at h
  norm_num at h
  have h2 : (3725.25 : Rat) = 14901 / 4 := by norm_num
  rw [h2, h]
  decide

/-- C7: with a non-empty URL and no option selected, `start_download` (both
revisions) reports the select-an-option status and schedules no task, so no
download work happens and no file is written. -/
theorem no_options_guard (url : String) (h : url ≠ "") :
    V100.start_download url false false false = (some "Please select download options.", []) ∧
    V101.start_download url false false false = (some "다운로드 옵션을 선택해주세요.", []) := by
  constructor
  · simp [V100.start_download, h]
  · simp [V101.start_download, h]

/-- Witness for C7. -/
theorem no_options_guard_witness :
    V100.start_download "https://u" false false false = (some "Please select download options.", []) ∧
    V101.start_download "https://u" false false false = (some "다운로드 옵션을 선택해주세요.", []) :=
  no_options_guard "https://u" (by decide)

/-- C8: filename resolution priority — a non-blank user title is returned
(trimmed) regardless of the metadata outcome; otherwise the remote title
when the lookup succeeds; otherwise the timestamp fallback. -/
theorem get_safe_filename_priority (title : String) (remote : Option String) (now : WallClock) :
    (pyStrip title ≠ "" → get_safe_filename title remote now = pyStrip title) ∧
    (pyStrip title = "" → ∀ t, remote = some t → get_safe_filename title remote now = t) ∧
    (pyStrip title = "" → remote = none →
      get_safe_filename title remote now = "download_" ++ strftime_yymmdd_hhmm now) := by
  refine ⟨fun h => by simp [get_safe_filename, h],
    fun h t ht => by simp [get_safe_filename, h, ht],
    fun h ht => by simp [get_safe_filename, h, ht]⟩

/-- Witness for C8: user title " MyClip " resolves to "MyClip" even though
the metadata lookup returned a different title. -/
theorem get_safe_filename_priority_witness :
    get_safe_filename " MyClip " (some "Other") ⟨25, 1, 2, 3, 4⟩ = "MyClip" := by
  have h := (get_safe_filename_priority " MyClip " (some "Other") ⟨25, 1, 2, 3, 4⟩).1
  rw [h (by decide)]
  decide

end YD

namespace YD

theorem format_time_zero : format_time (0 : Rat) = "00:00:00,000" := by
  have h := format_time_whole 0
  norm_num at h
  rw [h]
  decide

theorem format_time_two : format_time (2 : Rat) = "00:00:02,000" := by
  have h := format_time_whole 2
  norm_num at h
  rw [h]
  decide

theorem format_time_five : format_time (5 : Rat) = "00:00:05,000" := by
  have h := format_time_whole 5
  norm_num at h
  rw [h]
  decide

/-- C6: the SRT writer emits, per entry, the 1-based sequence number, the
timestamp range from start to start plus duration, the newline-collapsed
text and a blank separator — i.e. it agrees with the spec-side recursive
cue-block layout — and on the two-entry example it produces the two
documented blocks. -/
theorem srt_serialization_spec :
    (∀ es : List CaptionEntry, srtContent es = specCueBlocks 1 es) ∧
    srtContent [⟨0, some 2, "Hi"⟩, ⟨2, some 3, "Bye"⟩] =
      "1\n00:00:00,000 --> 00:00:02,000\nHi\n\n2\n00:00:02,000 --> 00:00:05,000\nBye\n\n" := by
  have hgen : ∀ es : List CaptionEntry, srtContent es = specCueBlocks 1 es := by
    intro es
    rw [srtContent]
    have h := srt_foldl es 0 ""
    rw [empty_append_str] at h
    exact h
  refine ⟨hgen, ?_⟩
  rw [hgen]
  simp only [specCueBlocks, Option.getD_some]
  have ha1 : (0 : Rat) + 2 = 2 := by norm_num
  have ha2 : (2 : Rat) + 3 = 5 := by norm_num
  rw [ha1, ha2, format_time_zero, format_time_two, format_time_five]
  decide

end YD

namespace YD.V100

/-- C1: the single-output selection of v1.0.0 — exact match among ko, en, ja
in that order, then an auto-generated track among ja, en, then an arbitrary
remaining track, failing only when the provider exposes no track at all; and
the finally chosen track, whenever translatable, is translated to English
before its entries are fetched, whatever language the search selected. -/
theorem transcript_selection_policy (tl : List TranscriptTrack) :
    (chooseTranscript tl = Except.error "NoTranscriptFound" ↔ tl = []) ∧
    (tl ≠ [] → ∃ t, selectTranscript tl = some t ∧
      (find_transcript tl ["ko", "en", "ja"] = some t ∨
        (find_transcript tl ["ko", "en", "ja"] = none ∧
          find_generated_transcript tl ["ja", "en"] = some t) ∨
        (find_transcript tl ["ko", "en", "ja"] = none ∧
          find_generated_transcript tl ["ja", "en"] = none ∧ tl.head? = some t)) ∧
      chooseTranscript tl = Except.ok
        (if t.isTranslatable then FetchSource.translated t "en" else FetchSource.original t)) := by
  by_cases htl : tl = []
  · subst htl
    refine ⟨by simp [chooseTranscript, selectTranscript, find_transcript,
      find_generated_transcript, List.find?], fun h => absurd rfl h⟩
  · have key : ∃ t, selectTranscript tl = some t ∧
        (find_transcript tl ["ko", "en", "ja"] = some t ∨
          (find_transcript tl ["ko", "en", "ja"] = none ∧
            find_generated_transcript tl ["ja", "en"] = some t) ∨
          (find_transcript tl ["ko", "en", "ja"] = none ∧
            find_generated_transcript tl ["ja", "en"] = none ∧ tl.head? = some t)) := by
      cases hf1 : find_transcript tl ["ko", "en", "ja"] with
      | some t1 => exact ⟨t1, by simp [selectTranscript, hf1], Or.inl rfl⟩
      | none =>
        cases hf2 : find_generated_transcript tl ["ja", "en"] with
        | some t2 => exact ⟨t2, by simp [selectTranscript, hf1, hf2], Or.inr (Or.inl ⟨rfl, rfl⟩)⟩
        | none =>
          cases tl with
          | nil => exact absurd rfl htl
          | cons hd rest =>
            exact ⟨hd, by simp [selectTranscript, hf1, hf2], Or.inr (Or.inr ⟨rfl, rfl, rfl⟩)⟩
    obtain ⟨t, hsel, hdisj⟩ := key
    refine ⟨⟨fun herr => ?_, fun h => absurd h htl⟩,
      fun _ => ⟨t, hsel, hdisj, by simp [chooseTranscript, hsel]⟩⟩
    rw [chooseTranscript, hsel] at herr
    simp at herr

/-- Witness for C1: a provider exposing a single translatable French track —
no priority language matches, the arbitrary-track fallback picks it, and it
is translated to English before fetching. -/
theorem transcript_selection_policy_witness :
    ∃ t, selectTranscript [⟨"fr", false, true⟩] = some t ∧
      (find_transcript [⟨"fr", false, true⟩] ["ko", "en", "ja"] = some t ∨
        (find_transcript [⟨"fr", false, true⟩] ["ko", "en", "ja"] = none ∧
          find_generated_transcript [⟨"fr", false, true⟩] ["ja", "en"] = some t) ∨
        (find_transcript [⟨"fr", false, true⟩] ["ko", "en", "ja"] = none ∧
          find_generated_transcript [⟨"fr", false, true⟩] ["ja", "en"] = none ∧
          ([⟨"fr", false, true⟩] : List TranscriptTrack).head? = some t)) ∧
      chooseTranscript [⟨"fr", false, true⟩] = Except.ok
        (if t.isTranslatable then FetchSource.translated t "en" else FetchSource.original t) :=
  (transcript_selection_policy [⟨"fr", false, true⟩]).2 (by simp)

end YD.V100

namespace YD.V101

theorem fail_prefix_ne_ko (e : String) : ("자막 다운로드 실패: " ++ e) ≠ koFailMsg := by
  intro h
  have h2 := congrArg (fun s => s.data.head?) h
  simp only [String.data_append, List.head?_append] at h2
  have h3 : ("자막 다운로드 실패: ".data.head?).or e.data.head? = some '자' := rfl
  rw [h3] at h2
  have h4 : koFailMsg.data.head? = some '한' := rfl
  rw [h4] at h2
  exact absurd h2 (by decide)

theorem fail_prefix_ne_en (e : String) : ("자막 다운로드 실패: " ++ e) ≠ enFailMsg := by
  intro h
  have h2 := congrArg (fun s => s.data.head?) h
  simp only [String.data_append, List.head?_append] at h2
  have h3 : ("자막 다운로드 실패: ".data.head?).or e.data.head? = some '자' := rfl
  rw [h3] at h2
  have h4 : enFailMsg.data.head? = some '영' := rfl
  rw [h4] at h2
  exact absurd h2 (by decide)

/-- C2: in v1.0.1 multi-output mode, a selection of all languages whose
Korean fetch fails while an English track (exact or auto-generated)
succeeds ends with a completion status naming only the English track and
never shows the no-Korean-subtitle message; that message appears only in
Korean-only mode, and the no-English-subtitle message only in English-only
mode. -/
theorem multi_language_status (lang : Lang) (env : CaptionEnv) (base : String) (srt : Bool) :
    (lang = Lang.all → env.listOk = true → env.koOk = false → (env.enOk || env.autoEnOk) = true →
      ((download_caption lang env base srt).messages.getLast? =
          some ((if env.enOk then "영어" else "영어 자동생성") ++ doneSuffix) ∧
        koFailMsg ∉ (download_caption lang env base srt).messages)) ∧
    (koFailMsg ∈ (download_caption lang env base srt).messages → lang = Lang.korean) ∧
    (enFailMsg ∈ (download_caption lang env base srt).messages → lang = Lang.english) := by
  obtain ⟨listOk, errMsg, koOk, enOk, autoEnOk⟩ := env
  cases listOk
  · refine ⟨by simp, ?_, ?_⟩
    · intro h
      simp [download_caption] at h
      rcases h with h | h
      · exact absurd h (by decide)
      · exact absurd h.symm (fail_prefix_ne_ko errMsg)
    · intro h
      simp [download_caption] at h
      rcases h with h | h
      · exact absurd h (by decide)
      · exact absurd h.symm (fail_prefix_ne_en errMsg)
  · cases lang <;> cases koOk <;> cases enOk <;> cases autoEnOk <;>
      simp [download_caption, statusDownloading, koFailMsg, enFailMsg, allFailMsg, doneSuffix] <;>
      decide

/-- Witness for C2: all languages selected, Korean missing, exact English
available — the final status names English only. -/
theorem multi_language_status_witness :
    (download_caption Lang.all ⟨true, "", false, true, false⟩ "b" true).messages.getLast? =
        some ((if true then "영어" else "영어 자동생성") ++ doneSuffix) ∧
      koFailMsg ∉ (download_caption Lang.all ⟨true, "", false, true, false⟩ "b" true).messages := by
  have h := (multi_language_status Lang.all ⟨true, "", false, true, false⟩ "b" true).1
    rfl rfl rfl rfl
  exact h

/-- C10 (implicit): in v1.0.1, `download_caption` returns True exactly when
its downloaded-subtitles list is non-empty, i.e. exactly when at least one
subtitle file was written, and the caption progress variable ends at 100
exactly on True and at 0 exactly on False (the caught-exception path
included). -/
theorem download_caption_ret_progress (lang : Lang) (env : CaptionEnv) (base : String)
    (srt : Bool) :
    ((download_caption lang env base srt).ret = true ↔
      (download_caption lang env base srt).downloaded ≠ []) ∧
    ((download_caption lang env base srt).ret = true ↔
      (download_caption lang env base srt).files ≠ []) ∧
    ((download_caption lang env base srt).progress = 100 ↔
      (download_caption lang env base srt).ret = true) ∧
    ((download_caption lang env base srt).progress = 0 ↔
      (download_caption lang env base srt).ret = false) := by
  obtain ⟨listOk, errMsg, koOk, enOk, autoEnOk⟩ := env
  cases listOk <;> cases lang <;> cases koOk <;> cases enOk <;> cases autoEnOk <;>
    simp [download_caption]

end YD.V101

namespace YD.V101

/-- C3 (amended to v1.0.1, where the aggregate logic exists): when captions
were the only selected option and the caption task failed, `run_tasks` emits
no aggregate message — the session messages are exactly the caption task's
own messages, leaving its failure message as the final visible status;
otherwise the all-done message is reported when every selected task
succeeded, and the partial-done message when some selected non-caption task
succeeded. -/
theorem caption_only_failure_suppression (capSel vidSel audSel : Bool) (env : SessionEnv)
    (base : String) (srt : Bool) :
    (capSel = true → vidSel = false → audSel = false →
      (download_caption env.lang env.cap base srt).ret = false →
      run_tasks capSel vidSel audSel env base srt =
        (download_caption env.lang env.cap base srt).messages) ∧
    ((capSel = true → (download_caption env.lang env.cap base srt).ret = true) →
      (vidSel = true → env.videoOk = true) →
      (audSel = true → env.audioOk = true) →
      (run_tasks capSel vidSel audSel env base srt).getLast? =
        some "모든 다운로드가 완료되었습니다!") ∧
    (¬((capSel = true → (download_caption env.lang env.cap base srt).ret = true) ∧
        (vidSel = true → env.videoOk = true) ∧ (audSel = true → env.audioOk = true)) →
      ((vidSel && env.videoOk) || (audSel && env.audioOk)) = true →
      (run_tasks capSel vidSel audSel env base srt).getLast? =
        some "일부 다운로드가 완료되었습니다.") := by
  obtain ⟨lang, cap, videoOk, videoErr, audioOk, audioErr⟩ := env
  cases hret : (download_caption lang cap base srt).ret <;>
    cases capSel <;> cases vidSel <;> cases audSel <;> cases videoOk <;> cases audioOk <;>
    simp [run_tasks, hret, videoAudioMsgs, List.getLast?_append]

/-- Witness for C3 (amended): a caption-only v1.0.1 session in Korean-only
mode with no Korean track — the session messages are exactly the caption
messages, ending in the caption failure message, with no aggregate line. -/
theorem caption_only_failure_suppression_witness :
    run_tasks true false false ⟨Lang.korean, ⟨true, "", false, false, false⟩, true, "", true, ""⟩ "b" true =
        (download_caption Lang.korean ⟨true, "", false, false, false⟩ "b" true).messages ∧
      (download_caption Lang.korean ⟨true, "", false, false, false⟩ "b" true).messages =
        [statusDownloading, koFailMsg] := by
  refine ⟨?_, by rfl⟩
  exact (caption_only_failure_suppression true false false
    ⟨Lang.korean, ⟨true, "", false, false, false⟩, true, "", true, ""⟩ "b" true).1
    rfl rfl rfl (by rfl)

end YD.V101

namespace YD.V100

/-- Counterexample to C3 as stated: in v1.0.0 a caption-only session whose
caption task failed still ends with the aggregate all-done message — the
worker prints it unconditionally once no exception escapes, because the
caption task swallows its own failure. -/
theorem caption_only_failure_aggregate_counterexample :
    run_tasks true false false (some "no transcript") none none =
      ["Subtitle download failed: no transcript", "All downloads completed!"] ∧
    (run_tasks true false false (some "no transcript") none none).getLast? =
      some "All downloads completed!" := by
  exact ⟨rfl, rfl⟩

end YD.V100
